import Mathlib

/-!
Verification of the SmartFormsGPT claim-adjudication core.

This file gives a shallow embedding of the claim decision engine
(`logic/decision_engine.py`), the business rules (`logic/rules.py`), the
field validators (`utils/validators.py`) and the claim-record schema
(`schemas/base_claim.py`), and proves properties of the embedded
definitions.

Modelling conventions:
* Python floats are modelled by `ℚ` (all constants and arithmetic in the
  source are decimal and small, so exact rational arithmetic captures the
  comparisons made by the code).
* `datetime` values used by the rules are modelled as rational "days since
  epoch" (the fractional part is the time of day); `timedelta(days = n)`
  is subtraction of `n`.  Calendar-aware code (`validate_date_range`,
  which calls `datetime.replace(year = ...)`) gets a separate
  year/month/day model.
* Python truthiness of the optional string / list fields is modelled
  explicitly (`None` and empty strings / lists are falsy).
* The duplicate ledger (a Python `set` of composite keys) is modelled as
  a duplicate-free-by-construction list of keys threaded through the
  state-mutating operations.
-/

/-- Claim status enumeration, from `schemas/base_claim.py` (`ClaimStatus`). -/
inductive ClaimStatus where
  | draft
  | submitted
  | under_review
  | approved
  | rejected
  | pending_info
deriving DecidableEq, Repr

/-- The claim record, from `schemas/base_claim.py` (`BaseClaim`).  Fields the
decision engine and rules never read (claim type, currency, timestamps) are
omitted; `date_of_birth` is kept because the record carries it.  Dates are
rational days since epoch. -/
structure BaseClaim where
  claim_id : String
  status : ClaimStatus
  patient_name : String
  patient_id : String
  date_of_birth : ℚ
  service_date : ℚ
  provider_name : String
  provider_id : Option String
  total_amount : ℚ
  description : Option String
  diagnosis_codes : Option (List String)
  procedure_codes : Option (List String)
deriving DecidableEq, Repr

deriving instance DecidableEq for Except

/-- Python `str.strip()`: remove leading and trailing whitespace. -/
def pyStrip (s : String) : String :=
  ⟨((s.data.dropWhile Char.isWhitespace).reverse.dropWhile
      Char.isWhitespace).reverse⟩

/-- Python truthiness of an optional string: `None` and `""` are falsy. -/
def optStrTruthy : Option String → Bool
  | none => false
  | some s => !(s == "")

/-- Python truthiness of an optional list: `None` and `[]` are falsy. -/
def optListTruthy : Option (List String) → Bool
  | none => false
  | some l => !l.isEmpty

/-- `len(x or [])` for an optional list, as used in `check_documentation`. -/
def optListLen : Option (List String) → Nat
  | none => 0
  | some l => l.length

/-- `ClaimRules.MAX_CLAIM_AMOUNT` ($100k), from `logic/rules.py`. -/
def MAX_CLAIM_AMOUNT : ℚ := 100000

/-- `ClaimRules.MAX_SERVICE_AGE_DAYS` (365 days), from `logic/rules.py`. -/
def MAX_SERVICE_AGE_DAYS : ℚ := 365

/-- `ClaimRules.validate_basic_info`: all of patient name, patient id,
provider name and total amount are truthy (the service date is a
non-optional `datetime`, which is always truthy in Python), and the trimmed
patient name has at least 2 characters. -/
def validate_basic_info (c : BaseClaim) : Bool :=
  if !(!(c.patient_name == "") && !(c.patient_id == "")
        && !(c.provider_name == "") && !(c.total_amount == 0)) then
    false
  else if (pyStrip c.patient_name).length < 2 then
    false
  else
    true

/-- `ClaimRules.check_amount_limit`: fails when the amount exceeds
`MAX_CLAIM_AMOUNT` or is non-positive. -/
def check_amount_limit (c : BaseClaim) : Bool :=
  if c.total_amount > MAX_CLAIM_AMOUNT then false
  else if c.total_amount ≤ 0 then false
  else true

/-- `ClaimRules.check_service_date`: the service date may be neither in the
future nor older than `MAX_SERVICE_AGE_DAYS` days before `now`. -/
def check_service_date (c : BaseClaim) (now : ℚ) : Bool :=
  if c.service_date > now then false
  else if c.service_date < now - MAX_SERVICE_AGE_DAYS then false
  else true

/-- The composite duplicate key `patient_id / service date's calendar day /
total amount` built by `ClaimRules.check_duplicate` (the source renders it
as the string `f"{patient_id}_{service_date.date()}_{total_amount}"`; we
keep the components as a tuple, `.date()` being the integer day). -/
abbrev ClaimKey := String × ℤ × ℚ

/-- The duplicate ledger `ClaimRules.processed_claims` (a Python `set`),
modelled as the list of recorded keys. -/
abbrev Ledger := List ClaimKey

/-- The duplicate key of a claim. -/
def claimKey (c : BaseClaim) : ClaimKey :=
  (c.patient_id, Int.floor c.service_date, c.total_amount)

/-- `ClaimRules.check_duplicate`: returns `true` and leaves the ledger
unchanged when the key was already recorded; otherwise records the key and
returns `false`. -/
def check_duplicate (c : BaseClaim) (s : Ledger) : Bool × Ledger :=
  let claim_key := claimKey c
  if claim_key ∈ s then (true, s)
  else (false, claim_key :: s)

/-- The `description`-present test of `check_documentation`:
`claim.description and len(claim.description) > 10`. -/
def descLong : Option String → Bool
  | none => false
  | some s => !(s == "") && decide (s.length > 10)

/-- `ClaimRules.check_documentation`: weighted completeness score over a
5.0-point scale, normalized to `[0,1]`.  The last half-point is
unconditional for amounts ≤ 5000 and requires both code lists non-empty for
amounts > 5000. -/
def check_documentation (c : BaseClaim) : ℚ :=
  let score : ℚ :=
    (if descLong c.description then (1 : ℚ) else 0)
    + (if optListTruthy c.diagnosis_codes then (3/2 : ℚ) else 0)
    + (if optListTruthy c.procedure_codes then (3/2 : ℚ) else 0)
    + (if optStrTruthy c.provider_id then (1/2 : ℚ) else 0)
    + (if c.total_amount > 5000 then
        (if optListLen c.diagnosis_codes > 0 && optListLen c.procedure_codes > 0
          then (1/2 : ℚ) else 0)
      else (1/2 : ℚ))
  score / 5

/-- The outcome of `DecisionEngine.evaluate_claim`: a status, the ordered
reason strings, and the confidence score. -/
structure DecisionResult where
  status : ClaimStatus
  reasons : List String
  confidence : ℚ
deriving DecidableEq, Repr

/-- The rejection reason produced for amounts over the limit:
`f"Claim amount ${claim.total_amount} exceeds policy limit"`. -/
def amountReason (a : ℚ) : String :=
  "Claim amount $" ++ toString a ++ " exceeds policy limit"

/-- `DecisionEngine.evaluate_claim`, from `logic/decision_engine.py`:
the ordered short-circuiting pipeline.  `now` is the evaluation instant
(`datetime.utcnow()` read by `check_service_date`), `s` the engine's
duplicate ledger; the updated ledger is returned alongside the result. -/
def evaluate_claim (c : BaseClaim) (now : ℚ) (s : Ledger) :
    DecisionResult × Ledger :=
  if !(validate_basic_info c) then
    (⟨.pending_info, ["Missing or invalid basic information"], 0⟩, s)
  else if !(check_amount_limit c) then
    (⟨.rejected, [amountReason c.total_amount], 1⟩, s)
  else if !(check_service_date c now) then
    (⟨.rejected, ["Service date is outside acceptable range"], 1⟩, s)
  else
    let dup := check_duplicate c s
    let reasons1 : List String :=
      if dup.1 then ["Potential duplicate claim detected"] else []
    let confidence1 : ℚ := if dup.1 then 1 * (7/10) else 1
    let doc_score := check_documentation c
    if doc_score < 1/2 then
      (⟨.pending_info, reasons1 ++ ["Insufficient documentation provided"],
        doc_score⟩, dup.2)
    else
      let confidence2 := confidence1 * doc_score
      if c.total_amount < 1000 ∧ confidence2 > 4/5 then
        (⟨.approved, reasons1 ++ ["Auto-approved: All criteria met"],
          confidence2⟩, dup.2)
      else
        (⟨.under_review, reasons1 ++ ["Requires manual review"],
          confidence2⟩, dup.2)

/-- The evaluation pipeline as the specification words it: basic-info
failure is terminal with `(pending_info, _, 0)`; then amount failure and
date failure are terminal rejections with confidence `1`; a duplicate
appends its reason and multiplies confidence by `0.7` without terminating;
a documentation score below `0.5` is terminal `pending_info` carrying the
score; otherwise confidence is multiplied by the score and the claim is
approved exactly when `total_amount < 1000` and confidence `> 0.8`, and
sent to review otherwise.  Compared against `evaluate_claim` for the
refinement claim. -/
def evaluateClaimSpec (c : BaseClaim) (now : ℚ) (s : Ledger) :
    DecisionResult × Ledger :=
  if validate_basic_info c = false then
    (⟨.pending_info, ["Missing or invalid basic information"], 0⟩, s)
  else if check_amount_limit c = false then
    (⟨.rejected, [amountReason c.total_amount], 1⟩, s)
  else if check_service_date c now = false then
    (⟨.rejected, ["Service date is outside acceptable range"], 1⟩, s)
  else
    let dup := check_duplicate c s
    let dupReasons : List String :=
      if dup.1 = true then ["Potential duplicate claim detected"] else []
    let dupConfidence : ℚ := if dup.1 = true then 7/10 else 1
    let doc := check_documentation c
    if doc < 1/2 then
      (⟨.pending_info, dupReasons ++ ["Insufficient documentation provided"],
        doc⟩, dup.2)
    else if c.total_amount < 1000 ∧ dupConfidence * doc > 4/5 then
      (⟨.approved, dupReasons ++ ["Auto-approved: All criteria met"],
        dupConfidence * doc⟩, dup.2)
    else
      (⟨.under_review, dupReasons ++ ["Requires manual review"],
        dupConfidence * doc⟩, dup.2)

/-- One entry of the `details` list built by `process_batch`. -/
structure ClaimDetail where
  claim_id : String
  status : ClaimStatus
  reasons : List String
  confidence : ℚ
deriving DecidableEq, Repr

/-- The summary dictionary returned by `DecisionEngine.process_batch`. -/
structure BatchResults where
  total : Nat
  approved : Nat
  rejected : Nat
  under_review : Nat
  pending_info : Nat
  details : List ClaimDetail
deriving DecidableEq, Repr

/-- The `elif` chain of `process_batch` that bumps one status counter. -/
def bumpCounter (r : BatchResults) (st : ClaimStatus) : BatchResults :=
  match st with
  | .approved => { r with approved := r.approved + 1 }
  | .rejected => { r with rejected := r.rejected + 1 }
  | .under_review => { r with under_review := r.under_review + 1 }
  | .pending_info => { r with pending_info := r.pending_info + 1 }
  | _ => r

/-- The loop body accumulation of `process_batch` over the remaining
claims, threading the duplicate ledger. -/
def process_batch_loop (claims : List BaseClaim) (now : ℚ)
    (acc : BatchResults) (s : Ledger) : BatchResults × Ledger :=
  match claims with
  | [] => (acc, s)
  | c :: rest =>
    let step := evaluate_claim c now s
    let res := step.1
    let acc1 := { acc with
      details := acc.details
        ++ [⟨c.claim_id, res.status, res.reasons, res.confidence⟩] }
    process_batch_loop rest now (bumpCounter acc1 res.status) step.2

/-- `DecisionEngine.process_batch`, from `logic/decision_engine.py`:
initializes `total` to the number of claims and all counters to zero, then
evaluates the claims in input order. -/
def process_batch (claims : List BaseClaim) (now : ℚ) (s : Ledger) :
    BatchResults × Ledger :=
  process_batch_loop claims now ⟨claims.length, 0, 0, 0, 0, []⟩ s

/-- The `value` string of a `ClaimStatus` member. -/
def statusValue : ClaimStatus → String
  | .draft => "draft"
  | .submitted => "submitted"
  | .under_review => "under_review"
  | .approved => "approved"
  | .rejected => "rejected"
  | .pending_info => "pending_info"

/-- Round-half-even (banker's rounding) to an integer, as Python `round`. -/
def roundHalfEven (x : ℚ) : ℤ :=
  let f := Int.floor x
  let r := x - f
  if r < 1/2 then f
  else if r > 1/2 then f + 1
  else if f % 2 = 0 then f else f + 1

/-- Python's `f"{q:.2%}"`: the value times 100, rendered with two decimal
digits and a percent sign. -/
def formatPercent2 (q : ℚ) : String :=
  let h : ℤ := roundHalfEven (q * 100 * 100)
  let m : ℕ := (h % 100).toNat
  toString (h / 100) ++ "." ++ (if m < 10 then "0" else "") ++ toString m
    ++ "%"

/-- `DecisionEngine.get_decision_explanation`: re-runs `evaluate_claim`
(threading the duplicate ledger again) and renders the fixed template of
status (uppercased), confidence percentage, and numbered reasons. -/
def get_decision_explanation (c : BaseClaim) (now : ℚ) (s : Ledger) :
    String × Ledger :=
  let step := evaluate_claim c now s
  let res := step.1
  ("Claim Decision: " ++ (statusValue res.status).toUpper ++ "\n"
    ++ "Confidence Score: " ++ formatPercent2 res.confidence ++ "\n\n"
    ++ "Reasons:\n"
    ++ String.join (res.reasons.enum.map
        (fun p => toString (p.1 + 1) ++ ". " ++ p.2 ++ "\n")),
   step.2)

/-- Numeric value of a decimal digit character (`int(d)` on one char). -/
def charDigit (ch : Char) : ℕ := ch.toNat - 48

/-- Every other element of a list, starting with the first: the Python
slices `digits[-1::-2]` and `digits[-2::-2]` are `everyOther` of the
reversed list, respectively of the reversed list minus its head. -/
def everyOther : List ℕ → List ℕ
  | [] => []
  | [a] => [a]
  | a :: _ :: rest => a :: everyOther rest

/-- Decimal-digit sum, with explicit structural fuel (always sufficient at
`n + 1`): `sum(digits_of(n))` in the source. -/
def sumDigitsAux : ℕ → ℕ → ℕ
  | 0, _ => 0
  | fuel + 1, n => if n < 10 then n else n % 10 + sumDigitsAux fuel (n / 10)

/-- Decimal-digit sum of `n`. -/
def sumDigits (n : ℕ) : ℕ := sumDigitsAux (n + 1) n

/-- `ClaimValidator._luhn_check`: sum the digits at even positions from the
right as they stand, and for each digit at an odd position from the right
add the decimal-digit sum of its double; valid when the total is divisible
by 10. -/
def luhn_check (number : String) : Bool :=
  let digits := number.data.map charDigit
  let odd_digits := everyOther digits.reverse
  let even_digits := everyOther (digits.reverse.drop 1)
  let checksum := odd_digits.sum
    + (even_digits.map (fun d => sumDigits (d * 2))).sum
  checksum % 10 == 0

/-- `ClaimValidator.validate_provider_npi`: optional; after stripping
whitespace and hyphens the value must be exactly 10 digits and pass the
Luhn check. -/
def validate_provider_npi (npi : String) : Bool × Option String :=
  if npi == "" then (true, none)
  else
    let cleaned_npi : String :=
      ⟨npi.data.filter (fun ch => !(ch.isWhitespace || ch == '-'))⟩
    if !(cleaned_npi.data.length == 10 && cleaned_npi.data.all (·.isDigit))
    then (false, some "NPI must be exactly 10 digits")
    else if !(luhn_check cleaned_npi) then
      (false, some "Invalid NPI checksum")
    else (true, none)

/-- Python `round(v, 2)`: banker's rounding to two decimal places. -/
def pyRound2 (v : ℚ) : ℚ := (roundHalfEven (v * 100) : ℚ) / 100

/-- The `validator('total_amount')` of `BaseClaim`: rejects non-positive
amounts and amounts over $1M, and stores the amount rounded to 2 decimals.
(The field also carries a `gt=0` constraint checked before this validator;
its condition coincides with the validator's first branch.) -/
def validate_amount_field (v : ℚ) : Except String ℚ :=
  if v ≤ 0 then .error "Claim amount must be positive"
  else if v > 1000000 then .error "Claim amount exceeds maximum limit"
  else .ok (pyRound2 v)

/-- The `validator('service_date')` of `BaseClaim`: rejects service dates
strictly in the future. -/
def validate_service_date_field (v now : ℚ) : Except String ℚ :=
  if v > now then .error "Service date cannot be in the future"
  else .ok v

/-- Construction of a `BaseClaim` record through the pydantic validators
of `schemas/base_claim.py`: fails fast with a validation error, or stores
the rounded amount. -/
def mkBaseClaim (claim_id : String) (status : ClaimStatus)
    (patient_name patient_id : String) (date_of_birth service_date : ℚ)
    (provider_name : String) (provider_id : Option String)
    (total_amount : ℚ) (description : Option String)
    (diagnosis_codes procedure_codes : Option (List String)) (now : ℚ) :
    Except String BaseClaim := do
  let amount ← validate_amount_field total_amount
  let sd ← validate_service_date_field service_date now
  pure ⟨claim_id, status, patient_name, patient_id, date_of_birth, sd,
    provider_name, provider_id, amount, description, diagnosis_codes,
    procedure_codes⟩

/-- Gregorian leap-year test. -/
def isLeap (y : ℤ) : Bool :=
  y % 4 == 0 && (y % 100 != 0 || y % 400 == 0)

/-- Number of days in a month of the Gregorian calendar. -/
def daysInMonth (y : ℤ) (m : ℕ) : ℕ :=
  if m == 2 then (if isLeap y then 29 else 28)
  else if m == 4 || m == 6 || m == 9 || m == 11 then 30
  else 31

/-- A calendar-aware `datetime`, for the code that manipulates calendar
fields: year, month, day, and the time of day as a fraction of a day. -/
structure PyDateTime where
  year : ℤ
  month : ℕ
  day : ℕ
  tod : ℚ
deriving DecidableEq, Repr

/-- A `PyDateTime` that `datetime` could actually hold. -/
def validDT (d : PyDateTime) : Bool :=
  1 ≤ d.month && d.month ≤ 12 && 1 ≤ d.day
    && d.day ≤ daysInMonth d.year d.month
    && decide ((0 : ℚ) ≤ d.tod) && decide (d.tod < 1)

/-- Python `datetime` comparison (lexicographic on the calendar fields
then the time of day). -/
def dtLt (a b : PyDateTime) : Bool :=
  a.year < b.year
    || (a.year == b.year
      && (a.month < b.month
        || (a.month == b.month
          && (a.day < b.day
            || (a.day == b.day && decide (a.tod < b.tod))))))

/-- `datetime.replace(year = y)`: keeps month/day/time and substitutes the
year; raises `ValueError` when the day does not exist in the target
month/year (e.g. Feb 29 of a non-leap year). -/
def replaceYear (d : PyDateTime) (y : ℤ) : Except String PyDateTime :=
  if d.day ≤ daysInMonth y d.month then .ok ⟨y, d.month, d.day, d.tod⟩
  else .error "day is out of range for month"

/-- `ClaimValidator.validate_date_range`, from `utils/validators.py`, with
the current instant `now` explicit; a raised exception is `Except.error`.
The ten-years-ago bound is computed by `utcnow().replace(year =
utcnow().year - 10)`, which can raise. -/
def validate_date_range (start_date end_date now : PyDateTime) :
    Except String (Bool × Option String) := do
  if dtLt end_date start_date then
    return (false, some "Start date must be before end date")
  let max_age ← replaceYear now (now.year - 10)
  if dtLt start_date max_age then
    return (false, some "Date is too far in the past")
  if dtLt now end_date then
    return (false, some "Date cannot be in the future")
  return (true, none)

/-- The mutable state of a `DecisionEngine` (its rules' duplicate ledger
and its `decision_history` list, which `evaluate_claim` never touches). -/
structure EngineState where
  processed_claims : Ledger
  decision_history : List String
deriving DecidableEq, Repr

/-- `evaluate_claim` with the full engine state and the claim object's
post-call value made explicit: the source assigns to no field of `claim`
and appends nothing to `decision_history`, so the returned claim is the
argument itself and only the duplicate ledger is updated. -/
def evaluateClaimFull (c : BaseClaim) (now : ℚ) (st : EngineState) :
    DecisionResult × BaseClaim × EngineState :=
  let step := evaluate_claim c now st.processed_claims
  (step.1, c, { st with processed_claims := step.2 })

/-- The detail record `process_batch` builds for one claim evaluated
against ledger `s`. -/
def detailOf (c : BaseClaim) (now : ℚ) (s : Ledger) : ClaimDetail :=
  ⟨c.claim_id, (evaluate_claim c now s).1.status,
   (evaluate_claim c now s).1.reasons, (evaluate_claim c now s).1.confidence⟩

/-- The details of evaluating the claims in input order, threading the
duplicate ledger from each evaluation into the next. -/
def detailsAlong (claims : List BaseClaim) (now : ℚ) (s : Ledger) :
    List ClaimDetail :=
  match claims with
  | [] => []
  | c :: rest => detailOf c now s
      :: detailsAlong rest now (evaluate_claim c now s).2

/-- The duplicate ledger left after evaluating the claims in order. -/
def ledgerAfter (claims : List BaseClaim) (now : ℚ) (s : Ledger) : Ledger :=
  match claims with
  | [] => s
  | c :: rest => ledgerAfter rest now (evaluate_claim c now s).2

/-- How many detail records carry a given status. -/
def countStatus (l : List ClaimDetail) (st : ClaimStatus) : ℕ :=
  l.countP (fun d => d.status == st)

/-- Placeholder detail for positional access. -/
def defaultDetail : ClaimDetail := ⟨"", .draft, [], 0⟩

/-- Placeholder claim for positional access. -/
def defaultClaim : BaseClaim :=
  ⟨"", .draft, "", "", 0, 0, "", none, 0, none, none, none⟩

/-- A complete, well-documented low-amount claim (the repository's test
fixture shape); service date 390 is within a year of the evaluation
instant 400 used below. -/
def testClaim : BaseClaim :=
  ⟨"CLM-TEST-001", .draft, "John Doe", "PAT-123456", 3653, 390,
   "Test Hospital", some "1234567893", 500, some "Medical consultation",
   some ["A00.1"], some ["99213"]⟩

/-- A basically-valid claim with amount 600 and no description, no codes
and no provider id. -/
def docPoorClaim : BaseClaim :=
  ⟨"CLM-600", .draft, "Jane Doe", "PAT-222222", 0, 390,
   "General Hospital", none, 600, none, none, none⟩

/-- An over-limit claim whose basic info is invalid: the patient name is a
single character, so `validate_basic_info` fails first. -/
def overLimitBadName : BaseClaim :=
  ⟨"CLM-X", .draft, "A", "PAT-123456", 0, 390, "General Hospital", none,
   200000, none, none, none⟩

/-- An over-limit, undocumented claim whose basic info is valid. -/
def overLimitClaim : BaseClaim :=
  ⟨"CLM-BIG", .draft, "John Doe", "PAT-123456", 0, 390, "General Hospital",
   none, 200000, none, none, none⟩

/-- A complete batch claim with the given id, patient id and amount. -/
def batchClaim (claim_id patient_id : String) (amount : ℚ) : BaseClaim :=
  ⟨claim_id, .draft, "John Doe", patient_id, 0, 390, "General Hospital",
   some "1234567893", amount, some "Medical consultation", some ["A00.1"],
   some ["99213"]⟩

/-- Five otherwise-complete claims with distinct patient ids and amounts
500 through 900. -/
def fiveClaims : List BaseClaim :=
  [batchClaim "CLM-B1" "PAT-000001" 500, batchClaim "CLM-B2" "PAT-000002" 600,
   batchClaim "CLM-B3" "PAT-000003" 700, batchClaim "CLM-B4" "PAT-000004" 800,
   batchClaim "CLM-B5" "PAT-000005" 900]

/-- The documentation score always lies in `[0, 1]`: the five weighted
terms sum to at most `5` before the division. -/
theorem check_documentation_bounds (c : BaseClaim) :
    0 ≤ check_documentation c ∧ check_documentation c ≤ 1 := by
  unfold check_documentation
  split_ifs <;> norm_num

/-- C5: under the prefix-free Luhn rule the code implements, the fixture
NPI `"1234567893"` (asserted valid by the repository's own
`test_valid_npi`) fails the checksum and is rejected, exactly like
`"1234567890"`; the validator reports the checksum error for both. -/
theorem luhn_rejects_fixture_npi :
    luhn_check "1234567893" = false ∧
    validate_provider_npi "1234567893" = (false, some "Invalid NPI checksum") ∧
    luhn_check "1234567890" = false ∧
    validate_provider_npi "1234567890" = (false, some "Invalid NPI checksum")
    := by decide

/-- C8: record construction accepts the strictly positive input amount
`0.001`, yet stores `round(0.001, 2) = 0`, so the stored `total_amount` of
a successfully constructed record is not always strictly positive
(contradicting the schema's `gt=0` field constraint); the explicit bound
checks themselves do fail fast. -/
theorem claim_construction_rounds_amount_to_zero :
    (0 < (1/1000 : ℚ)) ∧
    ((mkBaseClaim "CLM-R" .draft "P Q" "PAT-9" 0 390 "General Hospital"
        none (1/1000) none none none 400).map (fun c => c.total_amount)
      = Except.ok 0) ∧
    (validate_amount_field 2000000
      = Except.error "Claim amount exceeds maximum limit") ∧
    (validate_amount_field (-5) = Except.error "Claim amount must be positive") ∧
    (validate_service_date_field 401 400
      = Except.error "Service date cannot be in the future") := by
  with_unfolding_all decide

/-- C9: when the current instant is February 29 of a leap year (a real
`datetime`), `validate_date_range` aborts with a `ValueError` raised by
`utcnow().replace(year = utcnow().year - 10)`, because the resulting
calendar day does not exist; it does not return a `(bool, message)`
pair on that input. -/
theorem validate_date_range_raises_on_feb29 :
    validDT ⟨2024, 2, 29, 0⟩ = true ∧
    validate_date_range ⟨2024, 2, 28, 0⟩ ⟨2024, 2, 28, 0⟩ ⟨2024, 2, 29, 0⟩
      = Except.error "day is out of range for month" := by decide

/-- C10: `evaluate_claim` never mutates the claim record — every field,
the status included, is unchanged after evaluation — and the only engine
state it changes is the duplicate ledger. -/
theorem evaluate_claim_preserves_claim (c : BaseClaim) (now : ℚ)
    (st : EngineState) :
    (evaluateClaimFull c now st).2.1 = c ∧
    (evaluateClaimFull c now st).2.1.status = c.status ∧
    (evaluateClaimFull c now st).2.2.decision_history = st.decision_history ∧
    (evaluateClaimFull c now st).2.2.processed_claims
      = (evaluate_claim c now st.processed_claims).2 :=
  ⟨rfl, rfl, rfl, rfl⟩

set_option maxHeartbeats 1000000 in
/-- C7: the confidence returned by `evaluate_claim` always lies in the
closed interval `[0, 1]`: it is one of the terminal constants `0` and `1`,
the documentation score, or a product of factors in `[0, 1]`. -/
theorem evaluate_claim_confidence_unit_interval (c : BaseClaim) (now : ℚ)
    (s : Ledger) :
    0 ≤ (evaluate_claim c now s).1.confidence ∧
      (evaluate_claim c now s).1.confidence ≤ 1 := by
  obtain ⟨h0, h1⟩ := check_documentation_bounds c
  simp only [evaluate_claim]
  cases hdup : (check_duplicate c s).1 <;> split_ifs <;> dsimp only <;>
    constructor <;> nlinarith [h0, h1]

/-- The over-limit rejection reason always contains the word `exceeds`. -/
theorem amountReason_contains_exceeds (a : ℚ) :
    ∃ p q : String, amountReason a = p ++ "exceeds" ++ q := by
  refine ⟨"Claim amount $" ++ toString a ++ " ", " policy limit", ?_⟩
  unfold amountReason
  apply String.ext
  simp [String.data_append]

/-- C1: `evaluate_claim` is exactly the ordered short-circuiting pipeline
the specification describes, and in particular a claim that is both over
the amount limit and under-documented is rejected for its amount, with the
amount reason as the only reason (no documentation flag). -/
theorem evaluate_claim_matches_spec_pipeline (c : BaseClaim) (now : ℚ)
    (s : Ledger) :
    evaluate_claim c now s = evaluateClaimSpec c now s ∧
    (validate_basic_info c = true → c.total_amount > MAX_CLAIM_AMOUNT →
      check_documentation c < 1/2 →
      (evaluate_claim c now s).1.status = .rejected ∧
      (evaluate_claim c now s).1.reasons = [amountReason c.total_amount]) := by
  constructor
  · simp only [evaluate_claim, evaluateClaimSpec]
    cases hb : validate_basic_info c with
    | false => simp [hb]
    | true =>
      cases ha : check_amount_limit c with
      | false => simp [hb, ha]
      | true =>
        cases hd : check_service_date c now with
        | false => simp [hb, ha, hd]
        | true =>
          cases hdup : (check_duplicate c s).1 <;>
            simp [hb, ha, hd, hdup, one_mul]
  · intro hb hamt _
    have ha : check_amount_limit c = false := by
      unfold check_amount_limit
      rw [if_pos hamt]
    simp [evaluate_claim, hb, ha]

/-- C1 at a concrete input: the over-limit, under-documented claim is
rejected for its amount only, and the pipeline agrees with its
specification there. -/
theorem evaluate_claim_matches_spec_pipeline_check :
    evaluate_claim overLimitClaim 400 []
      = evaluateClaimSpec overLimitClaim 400 [] ∧
    (evaluate_claim overLimitClaim 400 []).1.status = .rejected ∧
    (evaluate_claim overLimitClaim 400 []).1.reasons
      = [amountReason overLimitClaim.total_amount] := by
  have h := evaluate_claim_matches_spec_pipeline overLimitClaim 400 []
  have h2 := h.2 (by decide) (by with_unfolding_all decide)
    (by with_unfolding_all decide)
  exact ⟨h.1, h2.1, h2.2⟩

/-- C2 counterexample: a claim record over the amount limit whose basic
info is invalid (one-character patient name) is returned as
`pending_info`, not `rejected` — the amount rule is not reached, so the
over-limit rejection is not unconditional. -/
theorem over_limit_not_always_rejected :
    overLimitBadName.total_amount > MAX_CLAIM_AMOUNT ∧
    (evaluate_claim overLimitBadName 400 []).1.status = .pending_info ∧
    ¬((evaluate_claim overLimitBadName 400 []).1.status = .rejected) := by
  with_unfolding_all decide

/-- C2 as amended: every claim that passes the basic-info validation and
has `total_amount > MAX_CLAIM_AMOUNT` is rejected, with a reason
containing the word `exceeds`, for every ledger state and clock. -/
theorem over_limit_rejected_after_basic_info (c : BaseClaim) (now : ℚ)
    (s : Ledger) (hb : validate_basic_info c = true)
    (hamt : c.total_amount > MAX_CLAIM_AMOUNT) :
    (evaluate_claim c now s).1.status = .rejected ∧
    ∃ r ∈ (evaluate_claim c now s).1.reasons,
      ∃ p q : String, r = p ++ "exceeds" ++ q := by
  have ha : check_amount_limit c = false := by
    unfold check_amount_limit
    rw [if_pos hamt]
  refine ⟨by simp [evaluate_claim, hb, ha], amountReason c.total_amount,
    by simp [evaluate_claim, hb, ha], amountReason_contains_exceeds _⟩

/-- C2 amended, at a concrete input: the basically-valid claim with amount
200000 is rejected with an `exceeds` reason. -/
theorem over_limit_rejected_after_basic_info_check :
    (evaluate_claim overLimitClaim 400 []).1.status = .rejected ∧
    ∃ r ∈ (evaluate_claim overLimitClaim 400 []).1.reasons,
      ∃ p q : String, r = p ++ "exceeds" ++ q :=
  over_limit_rejected_after_basic_info overLimitClaim 400 []
    (by decide) (by with_unfolding_all decide)

/-- C4: the documentation score is exactly the sum of the five weighted
terms divided by five — the last half-point being unconditional for
amounts up to 5000 and requiring both diagnosis and procedure codes above
5000 — and the undocumented amount-600 claim scores `0.1` and is returned
as `pending_info`. -/
theorem check_documentation_weighted_score (c : BaseClaim) :
    (c.total_amount ≤ 5000 →
      check_documentation c =
        ((if descLong c.description then (1 : ℚ) else 0)
          + (if optListTruthy c.diagnosis_codes then 3/2 else 0)
          + (if optListTruthy c.procedure_codes then 3/2 else 0)
          + (if optStrTruthy c.provider_id then 1/2 else 0)
          + 1/2) / 5) ∧
    (c.total_amount > 5000 →
      check_documentation c =
        ((if descLong c.description then (1 : ℚ) else 0)
          + (if optListTruthy c.diagnosis_codes then 3/2 else 0)
          + (if optListTruthy c.procedure_codes then 3/2 else 0)
          + (if optStrTruthy c.provider_id then 1/2 else 0)
          + (if 0 < optListLen c.diagnosis_codes
                ∧ 0 < optListLen c.procedure_codes
              then (1/2 : ℚ) else 0)) / 5) ∧
    check_documentation docPoorClaim = 1/10 ∧
    (evaluate_claim docPoorClaim 400 []).1
      = ⟨.pending_info, ["Insufficient documentation provided"], 1/10⟩ := by
  refine ⟨?_, ?_, ?_, ?_⟩
  · intro h
    unfold check_documentation
    rw [if_neg (not_lt.mpr h)]
  · intro h
    unfold check_documentation
    rw [if_pos h]
    simp only [Bool.and_eq_true, decide_eq_true_eq]
  · with_unfolding_all decide
  · with_unfolding_all decide

/-- C4 at the concrete low-amount claim: the formula instance given by the
score theorem. -/
theorem check_documentation_weighted_score_check :
    check_documentation docPoorClaim =
      ((if descLong docPoorClaim.description then (1 : ℚ) else 0)
        + (if optListTruthy docPoorClaim.diagnosis_codes then 3/2 else 0)
        + (if optListTruthy docPoorClaim.procedure_codes then 3/2 else 0)
        + (if optStrTruthy docPoorClaim.provider_id then 1/2 else 0)
        + 1/2) / 5 :=
  (check_documentation_weighted_score docPoorClaim).1
    (by with_unfolding_all decide)

/-- Once the three leading guards pass, the reasons are the duplicate flag
(when raised) followed by exactly one terminal reason, which is never the
duplicate message, and the returned ledger is the one `check_duplicate`
produced. -/
theorem evaluate_claim_after_guards (c : BaseClaim) (now : ℚ) (s : Ledger)
    (hb : validate_basic_info c = true) (ha : check_amount_limit c = true)
    (hd : check_service_date c now = true) :
    ∃ t : String,
      (evaluate_claim c now s).1.reasons =
        (if (check_duplicate c s).1 then ["Potential duplicate claim detected"]
          else []) ++ [t] ∧
      t ≠ "Potential duplicate claim detected" ∧
      (evaluate_claim c now s).2 = (check_duplicate c s).2 := by
  simp only [evaluate_claim, hb, ha, hd, Bool.not_true, Bool.false_eq_true,
    if_false]
  split_ifs <;>
    first
      | exact ⟨"Insufficient documentation provided", rfl, by decide, rfl⟩
      | exact ⟨"Auto-approved: All criteria met", rfl, by decide, rfl⟩
      | exact ⟨"Requires manual review", rfl, by decide, rfl⟩

/-- C3: `check_duplicate` never flags an unseen key but records it, always
flags a recorded key, and so returns `false` then `true` when called twice
for the same claim — directly, or through two engine evaluations
(`get_decision_explanation` threads the ledger exactly as
`evaluate_claim` does). -/
theorem check_duplicate_first_then_flagged (c : BaseClaim) (now : ℚ)
    (s : Ledger) :
    (claimKey c ∉ s → check_duplicate c s = (false, claimKey c :: s)) ∧
    (claimKey c ∈ s → check_duplicate c s = (true, s)) ∧
    (claimKey c ∉ s → (check_duplicate c s).1 = false ∧
      (check_duplicate c (check_duplicate c s).2).1 = true) ∧
    ((get_decision_explanation c now s).2 = (evaluate_claim c now s).2) ∧
    (validate_basic_info c = true → check_amount_limit c = true →
      check_service_date c now = true → claimKey c ∉ s →
      "Potential duplicate claim detected"
          ∉ (evaluate_claim c now s).1.reasons ∧
      "Potential duplicate claim detected"
          ∈ (evaluate_claim c now (evaluate_claim c now s).2).1.reasons) := by
  refine ⟨?_, ?_, ?_, rfl, ?_⟩
  · intro h; simp [check_duplicate, h]
  · intro h; simp [check_duplicate, h]
  · intro h; simp [check_duplicate, h]
  · intro hb ha hd hk
    have hdup1 : (check_duplicate c s).1 = false := by
      simp [check_duplicate, hk]
    have hld : (check_duplicate c s).2 = claimKey c :: s := by
      simp [check_duplicate, hk]
    obtain ⟨t1, hr1, ht1, hl1⟩ := evaluate_claim_after_guards c now s hb ha hd
    constructor
    · rw [hr1, hdup1]
      simp only [Bool.false_eq_true, if_false, List.nil_append,
        List.mem_singleton]
      exact fun hh => ht1 hh.symm
    · have hs2 : (evaluate_claim c now s).2 = claimKey c :: s :=
        hl1.trans hld
      rw [hs2]
      obtain ⟨t2, hr2, _, _⟩ :=
        evaluate_claim_after_guards c now (claimKey c :: s) hb ha hd
      have hdup2 : (check_duplicate c (claimKey c :: s)).1 = true := by
        simp [check_duplicate]
      rw [hr2, hdup2]
      simp

/-- C3 at a concrete input: the first check of the test claim is not
flagged, the second is, and the engine reports the duplicate only on its
second evaluation. -/
theorem check_duplicate_first_then_flagged_check :
    ((check_duplicate testClaim []).1 = false ∧
      (check_duplicate testClaim (check_duplicate testClaim []).2).1
        = true) ∧
    ("Potential duplicate claim detected"
        ∉ (evaluate_claim testClaim 400 []).1.reasons ∧
      "Potential duplicate claim detected"
        ∈ (evaluate_claim testClaim 400
            (evaluate_claim testClaim 400 []).2).1.reasons) := by
  have h := check_duplicate_first_then_flagged testClaim 400 []
  exact ⟨h.2.2.1 (by decide),
    h.2.2.2.2 (by decide) (by with_unfolding_all decide)
      (by with_unfolding_all decide) (by decide)⟩

/-- The counter bump leaves `total` unchanged. -/
theorem bumpCounter_total (r : BatchResults) (st : ClaimStatus) :
    (bumpCounter r st).total = r.total := by cases st <;> rfl

/-- The counter bump leaves `details` unchanged. -/
theorem bumpCounter_details (r : BatchResults) (st : ClaimStatus) :
    (bumpCounter r st).details = r.details := by cases st <;> rfl

/-- The counter bump adds the indicator of the status to `approved`. -/
theorem bumpCounter_approved (r : BatchResults) (st : ClaimStatus) :
    (bumpCounter r st).approved
      = r.approved + (if st == .approved then 1 else 0) := by
  cases st <;> rfl

/-- The counter bump adds the indicator of the status to `rejected`. -/
theorem bumpCounter_rejected (r : BatchResults) (st : ClaimStatus) :
    (bumpCounter r st).rejected
      = r.rejected + (if st == .rejected then 1 else 0) := by
  cases st <;> rfl

/-- The counter bump adds the indicator of the status to `under_review`. -/
theorem bumpCounter_under_review (r : BatchResults) (st : ClaimStatus) :
    (bumpCounter r st).under_review
      = r.under_review + (if st == .under_review then 1 else 0) := by
  cases st <;> rfl

/-- The counter bump adds the indicator of the status to `pending_info`. -/
theorem bumpCounter_pending_info (r : BatchResults) (st : ClaimStatus) :
    (bumpCounter r st).pending_info
      = r.pending_info + (if st == .pending_info then 1 else 0) := by
  cases st <;> rfl

/-- The batch loop never changes the `total` field of the accumulator. -/
theorem process_batch_loop_total (claims : List BaseClaim) (now : ℚ) :
    ∀ acc s, (process_batch_loop claims now acc s).1.total = acc.total := by
  induction claims with
  | nil => intro acc s; rfl
  | cons c rest ih =>
    intro acc s
    simp only [process_batch_loop]
    rw [ih, bumpCounter_total]

/-- The batch loop appends the threaded details to the accumulator's. -/
theorem process_batch_loop_details (claims : List BaseClaim) (now : ℚ) :
    ∀ acc s, (process_batch_loop claims now acc s).1.details
      = acc.details ++ detailsAlong claims now s := by
  induction claims with
  | nil => intro acc s; simp [process_batch_loop, detailsAlong]
  | cons c rest ih =>
    intro acc s
    simp only [process_batch_loop, detailsAlong]
    rw [ih, bumpCounter_details]
    simp [detailOf]

/-- The batch loop adds the number of approved outcomes to `approved`. -/
theorem process_batch_loop_approved (claims : List BaseClaim) (now : ℚ) :
    ∀ acc s, (process_batch_loop claims now acc s).1.approved
      = acc.approved + countStatus (detailsAlong claims now s) .approved := by
  induction claims with
  | nil => intro acc s; simp [process_batch_loop, detailsAlong, countStatus]
  | cons c rest ih =>
    intro acc s
    simp only [process_batch_loop, detailsAlong]
    rw [ih, bumpCounter_approved]
    simp only [countStatus, List.countP_cons, detailOf]
    omega

/-- The batch loop adds the number of rejected outcomes to `rejected`. -/
theorem process_batch_loop_rejected (claims : List BaseClaim) (now : ℚ) :
    ∀ acc s, (process_batch_loop claims now acc s).1.rejected
      = acc.rejected + countStatus (detailsAlong claims now s) .rejected := by
  induction claims with
  | nil => intro acc s; simp [process_batch_loop, detailsAlong, countStatus]
  | cons c rest ih =>
    intro acc s
    simp only [process_batch_loop, detailsAlong]
    rw [ih, bumpCounter_rejected]
    simp only [countStatus, List.countP_cons, detailOf]
    omega

/-- The batch loop adds the number of review outcomes to `under_review`. -/
theorem process_batch_loop_under_review (claims : List BaseClaim) (now : ℚ) :
    ∀ acc s, (process_batch_loop claims now acc s).1.under_review
      = acc.under_review
        + countStatus (detailsAlong claims now s) .under_review := by
  induction claims with
  | nil => intro acc s; simp [process_batch_loop, detailsAlong, countStatus]
  | cons c rest ih =>
    intro acc s
    simp only [process_batch_loop, detailsAlong]
    rw [ih, bumpCounter_under_review]
    simp only [countStatus, List.countP_cons, detailOf]
    omega

/-- The batch loop adds the number of pending outcomes to `pending_info`. -/
theorem process_batch_loop_pending_info (claims : List BaseClaim) (now : ℚ) :
    ∀ acc s, (process_batch_loop claims now acc s).1.pending_info
      = acc.pending_info
        + countStatus (detailsAlong claims now s) .pending_info := by
  induction claims with
  | nil => intro acc s; simp [process_batch_loop, detailsAlong, countStatus]
  | cons c rest ih =>
    intro acc s
    simp only [process_batch_loop, detailsAlong]
    rw [ih, bumpCounter_pending_info]
    simp only [countStatus, List.countP_cons, detailOf]
    omega

/-- Every evaluation outcome carries one of the four decision statuses. -/
theorem evaluate_claim_status_cases (c : BaseClaim) (now : ℚ) (s : Ledger) :
    (evaluate_claim c now s).1.status = .approved ∨
    (evaluate_claim c now s).1.status = .rejected ∨
    (evaluate_claim c now s).1.status = .under_review ∨
    (evaluate_claim c now s).1.status = .pending_info := by
  simp only [evaluate_claim]
  split_ifs <;> simp

/-- Every detail of the threaded evaluation carries one of the four
decision statuses. -/
theorem detailsAlong_status_cases (claims : List BaseClaim) (now : ℚ) :
    ∀ s d, d ∈ detailsAlong claims now s →
      d.status = .approved ∨ d.status = .rejected ∨
      d.status = .under_review ∨ d.status = .pending_info := by
  induction claims with
  | nil => intro s d hd; simp [detailsAlong] at hd
  | cons c rest ih =>
    intro s d hd
    simp only [detailsAlong, List.mem_cons] at hd
    rcases hd with rfl | hd
    · exact evaluate_claim_status_cases c now s
    · exact ih _ d hd

/-- The four status counts of a list of decision details sum to its
length. -/
theorem countStatus_partition (l : List ClaimDetail)
    (h : ∀ d ∈ l, d.status = .approved ∨ d.status = .rejected ∨
      d.status = .under_review ∨ d.status = .pending_info) :
    countStatus l .approved + countStatus l .rejected
      + countStatus l .under_review + countStatus l .pending_info
      = l.length := by
  induction l with
  | nil => rfl
  | cons d rest ih =>
    have hd := h d (List.mem_cons_self d rest)
    have ih' := ih fun x hx => h x (List.mem_cons_of_mem _ hx)
    simp only [countStatus, List.countP_cons, List.length_cons] at *
    rcases hd with h1 | h1 | h1 | h1 <;> simp [h1] <;> omega

/-- The threaded details list has one entry per claim. -/
theorem detailsAlong_length (claims : List BaseClaim) (now : ℚ) :
    ∀ s, (detailsAlong claims now s).length = claims.length := by
  induction claims with
  | nil => intro s; rfl
  | cons c rest ih =>
    intro s
    simp only [detailsAlong, List.length_cons, ih]

/-- The `i`-th threaded detail is the evaluation of the `i`-th claim
against the ledger produced by the first `i` evaluations. -/
theorem detailsAlong_getD (claims : List BaseClaim) (now : ℚ) :
    ∀ s i, i < claims.length →
      (detailsAlong claims now s).getD i defaultDetail
        = detailOf (claims.getD i defaultClaim) now
            (ledgerAfter (claims.take i) now s) := by
  induction claims with
  | nil => intro s i h; exact absurd h (by simp)
  | cons c rest ih =>
    intro s i h
    cases i with
    | zero => rfl
    | succ n =>
      simp only [detailsAlong, List.getD_cons_succ, List.take_succ_cons,
        ledgerAfter]
      exact ih _ n (by simpa using h)

/-- C6: `process_batch` reports the input length as `total`, a details
list in input order whose `i`-th entry is the evaluation record of the
`i`-th claim (against the ledger threaded through the first `i`
evaluations), and four status counters that count exactly the outcomes
with that status and sum to `total`; five otherwise-complete claims with
distinct patient ids and amounts 500 through 900 all come back approved. -/
theorem process_batch_summary (claims : List BaseClaim) (now : ℚ)
    (s : Ledger) :
    (process_batch claims now s).1.total = claims.length ∧
    (process_batch claims now s).1.details = detailsAlong claims now s ∧
    (process_batch claims now s).1.details.length = claims.length ∧
    (∀ i, i < claims.length →
      (process_batch claims now s).1.details.getD i defaultDetail
        = detailOf (claims.getD i defaultClaim) now
            (ledgerAfter (claims.take i) now s)) ∧
    (process_batch claims now s).1.approved
      = countStatus (detailsAlong claims now s) .approved ∧
    (process_batch claims now s).1.rejected
      = countStatus (detailsAlong claims now s) .rejected ∧
    (process_batch claims now s).1.under_review
      = countStatus (detailsAlong claims now s) .under_review ∧
    (process_batch claims now s).1.pending_info
      = countStatus (detailsAlong claims now s) .pending_info ∧
    (process_batch claims now s).1.approved
        + (process_batch claims now s).1.rejected
        + (process_batch claims now s).1.under_review
        + (process_batch claims now s).1.pending_info
      = (process_batch claims now s).1.total ∧
    ((process_batch fiveClaims 400 []).1.approved = 5 ∧
      (process_batch fiveClaims 400 []).1.total = 5 ∧
      (process_batch fiveClaims 400 []).1.details.length = 5) := by
  have htot : (process_batch claims now s).1.total = claims.length :=
    process_batch_loop_total claims now _ s
  have hdet : (process_batch claims now s).1.details
      = detailsAlong claims now s := by
    have h := process_batch_loop_details claims now
      ⟨claims.length, 0, 0, 0, 0, []⟩ s
    simpa [process_batch] using h
  have happ := process_batch_loop_approved claims now
    ⟨claims.length, 0, 0, 0, 0, []⟩ s
  have hrej := process_batch_loop_rejected claims now
    ⟨claims.length, 0, 0, 0, 0, []⟩ s
  have hur := process_batch_loop_under_review claims now
    ⟨claims.length, 0, 0, 0, 0, []⟩ s
  have hpi := process_batch_loop_pending_info claims now
    ⟨claims.length, 0, 0, 0, 0, []⟩ s
  simp only [process_batch] at *
  refine ⟨htot, hdet, by rw [hdet, detailsAlong_length], ?_, by simpa using happ,
    by simpa using hrej, by simpa using hur, by simpa using hpi, ?_, ?_⟩
  · intro i hi
    rw [hdet, detailsAlong_getD claims now s i hi]
  · rw [htot, happ, hrej, hur, hpi]
    simp only [Nat.zero_add]
    rw [countStatus_partition _ (detailsAlong_status_cases claims now s),
      detailsAlong_length]
  · with_unfolding_all decide

/-- C6 at the concrete batch: positional access given by the summary
theorem at index 2 of the five-claim batch. -/
theorem process_batch_summary_check :
    (process_batch fiveClaims 400 []).1.details.getD 2 defaultDetail
      = detailOf (fiveClaims.getD 2 defaultClaim) 400
          (ledgerAfter (fiveClaims.take 2) 400 []) :=
  (process_batch_summary fiveClaims 400 []).2.2.2.1 2 (by decide)
